import Mathlib

/-!
Verification of the GasSentinel sender gateway (`src/main.rs`).

The program is a CoAP→InfluxDB telemetry gateway.  We shallowly embed the
request-handling pipeline:

* the payload schema check, source line 43:
  `^([a-fA-F0-9]{16})(,-?[0-9]+){8}$` matched with `re.is_match`,
  embedded as the scanner `is_valid` over the payload's characters;
* the decoding of a valid payload into a `GasSentinelDataPoint`
  (source lines 104–115): byte/char slices `payload[..16]`, `payload[17..]`,
  `split(',').nth(k).unwrap().parse().unwrap()`;
* the request handler closure (source lines 94–146) including the
  `String::from_utf8(..).unwrap()` of the payload bytes, the method test
  `request.get_method() == &Method::Put`, the single `client.write` call and
  the response construction;
* the startup address checks of `main` (source lines 51–69).

Strings are embedded as `List Char` (Rust strings are Unicode text; every
payload the schema accepts is ASCII, proved below, so Rust's byte indices 16
and 17 coincide with character indices).  Raw request payloads are byte lists
(`List Nat`), decoded by an embedding of UTF-8 validation.  The `f64` parse of
the schema-validated tokens (shape `-?[0-9]+`) is embedded as exact integer
parsing: on that grammar Rust's `f64::from_str` succeeds exactly when the
integer parse does, and which token feeds which field is unaffected by
floating-point rounding.
-/

/-- Character class `[0-9]` of the pattern. -/
def isDigitChar (c : Char) : Bool :=
  ('0' ≤ c) && (c ≤ '9')

/-- Character class `[a-fA-F0-9]` of the pattern. -/
def isHexChar (c : Char) : Bool :=
  (('a' ≤ c) && (c ≤ 'f')) || (('A' ≤ c) && (c ≤ 'F')) || isDigitChar c

/-- Greedy `[0-9]+` of the pattern: succeeds iff the list starts with a digit,
returning the remainder after all leading digits. -/
def matchDigits1 (l : List Char) : Option (List Char) :=
  match l with
  | c :: _ => if isDigitChar c then some (l.dropWhile isDigitChar) else none
  | [] => none

/-- One group `,-?[0-9]+` of the pattern: a comma, then an optional minus
sign, then one or more digits.  (Taking a present `-` is forced: skipping it
would require `[0-9]+` to match the `-` itself, which fails, so this
deterministic scanner agrees with the backtracking regex.) -/
def matchGroup (l : List Char) : Option (List Char) :=
  if l.head? = some ',' then
    if l.tail.head? = some '-' then matchDigits1 l.tail.tail
    else matchDigits1 l.tail
  else none

/-- Repetition of the group pattern, n times. -/
def matchGroups : Nat → List Char → Option (List Char)
  | 0, l => some l
  | n + 1, l => (matchGroup l).bind (matchGroups n)

/-- The schema validator: `re.is_match(&payload[..])` with
`pattern = "^([a-fA-F0-9]{16})(,-?[0-9]+){8}$"` (source lines 43 and 101–103).
The pattern is anchored on both sides, so `is_match` is a whole-string match:
16 hex characters, then exactly 8 comma-led integer groups, then the end. -/
def is_valid (p : List Char) : Bool :=
  ((p.take 16).length == 16) && (p.take 16).all isHexChar &&
    (matchGroups 8 (p.drop 16) == some [])

/-- A numeric token of the wire format: `-?[0-9]+`, an optional minus sign and
one or more digits. -/
def isNumTok (b : List Char) : Bool :=
  if b.head? = some '-' then (!b.tail.isEmpty) && b.tail.all isDigitChar
  else (!b.isEmpty) && b.all isDigitChar

/-- One comma-led group of the wire format, as the spec describes it:
`,` followed by an optional `-` and one or more digits. -/
def IsGroup (g : List Char) : Prop :=
  ∃ b, g = ',' :: b ∧ isNumTok b = true

/-- The spec's wording of the schema (§4.1): the whole payload is 16 hex
characters followed by exactly 8 groups of `,` + optional `-` + digits. -/
def SchemaMatch (p : List Char) : Prop :=
  ∃ (id : List Char) (gs : List (List Char)),
    p = id ++ gs.flatten ∧ id.length = 16 ∧ id.all isHexChar = true ∧
    gs.length = 8 ∧ ∀ g ∈ gs, IsGroup g

/-- Rust `str::split(',')` on the characters of a string: splitting on every
comma, keeping empty pieces, one piece more than there are commas. -/
def splitComma : List Char → List (List Char)
  | [] => [[]]
  | c :: rest =>
    if c = ',' then [] :: splitComma rest
    else
      match splitComma rest with
      | t :: ts => (c :: t) :: ts
      | [] => [[c]]

/-- Parse a non-empty all-digit list as a natural number (base 10). -/
def parseDigits (l : List Char) : Option Nat :=
  if l.isEmpty then none
  else if l.all isDigitChar then
    some (l.foldl (fun a c => a * 10 + (c.toNat - 48)) 0)
  else none

/-- Embedding of `str::parse::<f64>()` as applied to the wire tokens.  Every
token reaching a `parse` call in the handler has already matched `-?[0-9]+`
(e.g. `"-72"`, `"3298"`); on that grammar Rust's `f64` parse succeeds exactly
when this integer parse does, and we keep the exact integer value (the `f64`
rounding of large integers is abstracted away; no claim depends on it). -/
def parseNum (l : List Char) : Option Int :=
  if l.head? = some '-' then (parseDigits l.tail).map (fun n => -(n : Int))
  else (parseDigits l).map (fun n => (n : Int))

/-- The persisted record, source lines 15–36.  Measurement fields are the
(exact) numeric values of the parsed tokens; `time` is the nanosecond
timestamp taken at ingestion. -/
structure GasSentinelDataPoint where
  device_eui64 : List Char
  temp : Int
  hum : Int
  pres : Int
  cl1 : Int
  cl2 : Int
  rssi : Int
  vbat : Int
  time : Int
deriving DecidableEq, Repr

/-- The decode-and-build step of the handler, source lines 104–115:
`device_eui64 = payload[..16]`, and each measurement field is
`payload[17..].split(',').nth(k).unwrap().parse().unwrap()` for
k = 1..7 (note: `nth` is 0-based, so token 0 of the split is read by no
field).  `none` models a panic of one of the `unwrap` calls. -/
def decodePoint (payload : List Char) (now : Int) : Option GasSentinelDataPoint :=
  let toks := splitComma (payload.drop 17)
  match (toks.get? 1).bind parseNum, (toks.get? 2).bind parseNum,
      (toks.get? 3).bind parseNum, (toks.get? 4).bind parseNum,
      (toks.get? 5).bind parseNum, (toks.get? 6).bind parseNum,
      (toks.get? 7).bind parseNum with
  | some temp, some hum, some pres, some cl1, some cl2, some rssi, some vbat =>
    some { device_eui64 := payload.take 16, temp := temp, hum := hum,
           pres := pres, cl1 := cl1, cl2 := cl2, rssi := rssi, vbat := vbat,
           time := now }
  | _, _, _, _, _, _, _ => none

/-- A UTF-8 continuation byte `10xxxxxx`. -/
def isCont (b : Nat) : Bool :=
  128 ≤ b && b ≤ 191

/-- Embedding of `String::from_utf8` (source line 102): decode a byte list as
UTF-8 text, rejecting (as Rust does) truncated sequences, stray continuation
bytes, overlong encodings, surrogates and code points above U+10FFFF.
`none` models the `Err` that the handler immediately `unwrap`s into a panic. -/
def utf8Decode : List Nat → Option (List Char)
  | [] => some []
  | b1 :: rest =>
    if b1 < 128 then
      (utf8Decode rest).map (fun cs => Char.ofNat b1 :: cs)
    else if 194 ≤ b1 && b1 ≤ 223 then
      match rest with
      | b2 :: rest2 =>
        if isCont b2 then
          (utf8Decode rest2).map (fun cs =>
            Char.ofNat ((b1 - 192) * 64 + (b2 - 128)) :: cs)
        else none
      | [] => none
    else if 224 ≤ b1 && b1 ≤ 239 then
      match rest with
      | b2 :: b3 :: rest3 =>
        if (if b1 = 224 then 160 ≤ b2 && b2 ≤ 191
            else if b1 = 237 then 128 ≤ b2 && b2 ≤ 159
            else isCont b2) && isCont b3 then
          (utf8Decode rest3).map (fun cs =>
            Char.ofNat ((b1 - 224) * 4096 + (b2 - 128) * 64 + (b3 - 128)) :: cs)
        else none
      | _ => none
    else if 240 ≤ b1 && b1 ≤ 244 then
      match rest with
      | b2 :: b3 :: b4 :: rest4 =>
        if (if b1 = 240 then 144 ≤ b2 && b2 ≤ 191
            else if b1 = 244 then 128 ≤ b2 && b2 ≤ 143
            else isCont b2) && isCont b3 && isCont b4 then
          (utf8Decode rest4).map (fun cs =>
            Char.ofNat ((b1 - 240) * 262144 + (b2 - 128) * 4096 +
              (b3 - 128) * 64 + (b4 - 128)) :: cs)
        else none
      | _ => none
    else none

/-- CoAP request methods (`coap_lite::RequestType`). -/
inductive Method where
  | get
  | post
  | put
  | delete
  | unKnown
deriving DecidableEq, Repr

/-- CoAP response codes used by the handler (`coap_lite::ResponseType`). -/
inductive ResponseType where
  | created
  | deleted
  | valid
  | changed
  | content
  | badRequest
  | badOption
  | notFound
  | internalServerError
deriving DecidableEq, Repr

/-- `coap_lite::MessageClass`. -/
inductive MessageClass where
  | empty
  | request (m : Method)
  | response (r : ResponseType)
deriving DecidableEq, Repr

/-- CoAP message header (the part the handler touches: `header.code`). -/
structure MessageHeader where
  code : MessageClass
deriving DecidableEq, Repr

/-- A CoAP packet: raw payload bytes and header (`message.payload`,
`message.header.code`). -/
structure Packet where
  header : MessageHeader
  payload : List Nat
deriving DecidableEq, Repr

/-- A pending response object (`coap::CoapResponse`), wrapping the packet the
handler mutates before returning it. -/
structure CoapResponse where
  message : Packet
deriving DecidableEq, Repr

/-- An incoming request as the handler closure sees it: its packet and the
optional response object supplied by the transport. -/
structure CoapRequest where
  message : Packet
  response : Option CoapResponse
deriving DecidableEq, Repr

/-- `request.get_method()`: the request type carried in the header code. -/
def getMethod (r : CoapRequest) : Method :=
  match r.message.header.code with
  | .request m => m
  | _ => .unKnown

/-- One `client.write(&*bucket, stream::iter(points))` call: the destination
bucket and the sequence of points passed. -/
structure WriteCall where
  bucket : String
  points : List GasSentinelDataPoint
deriving DecidableEq, Repr

/-- Failure reported by the InfluxDB client's `write`. -/
inductive WriteError where
  | connectivity
  | auth
  | quota
deriving DecidableEq, Repr

/-- Outcome of one invocation of the handler closure: either it panicked
(an `unwrap` on `Err`/`None`), or it ran to completion returning an optional
response.  Both record the `write` calls issued before the end. -/
inductive HandlerResult where
  | panicked (writes : List WriteCall)
  | completed (writes : List WriteCall) (response : Option CoapResponse)
deriving DecidableEq, Repr

/-- The write calls an invocation issued, whether or not it panicked. -/
def HandlerResult.writeCalls : HandlerResult → List WriteCall
  | .panicked ws => ws
  | .completed ws _ => ws

/-- The error response of the malformed branch (source lines 123–131):
payload set to `b"0"` (the byte 48) and code to `Response(BadOption)`. -/
def errorResponse (m : CoapResponse) : CoapResponse :=
  { m with
    message := { m.message with
                  payload := [48]
                  header := { m.message.header with code := .response .badOption } } }

/-- The success response (source lines 134–142): payload set to `b""` and
code to `Response(Valid)`. -/
def successResponse (m : CoapResponse) : CoapResponse :=
  { m with
    message := { m.message with
                  payload := []
                  header := { m.message.header with code := .response .valid } } }

/-- The request handler closure, source lines 94–146.  `bucket` is the shared
destination name; `now` the ingestion timestamp `Utc::now().timestamp_nanos()`;
`writeResult` the sink's answer to this request's `write` call (external
collaborator).  Faithfully: the payload bytes are `from_utf8(..).unwrap()`ed
first (panic on invalid UTF-8); then `re.is_match(&payload[..]) &&
request.get_method() == &Method::Put` selects the branch; on the accepted
branch one point is decoded (panic if an `unwrap` fails), written once
(`write(..).await.unwrap()`, panic on `Err`), and the success response is
returned; otherwise no write happens and the error response is returned.
When `request.response` is `None` the handler returns `None`. -/
def handle (bucket : String) (req : CoapRequest) (now : Int)
    (writeResult : Except WriteError Unit) : HandlerResult :=
  match utf8Decode req.message.payload with
  | none => .panicked []
  | some payload =>
    if is_valid payload && decide (getMethod req = Method.put) then
      match decodePoint payload now with
      | none => .panicked []
      | some point =>
        match writeResult with
        | .error _ => .panicked [⟨bucket, [point]⟩]
        | .ok _ => .completed [⟨bucket, [point]⟩] (req.response.map successResponse)
    else
      .completed [] (req.response.map errorResponse)

/-- A local IP address as returned by `local_ip()` / `local_ipv6()`. -/
inductive IpAddr where
  | v4 (a : Nat)
  | v6 (a : Nat)
deriving DecidableEq, Repr

/-- Outcome of `main`'s startup sequence, up to the creation of the CoAP
listener. -/
inductive StartupOutcome where
  | usageExit
  | aborted
  | listening (bindAddr6 : Nat)
deriving DecidableEq, Repr

/-- The startup sequence of `main`, source lines 45–69, up to
`Server::new(self_ipv6.to_string() + ":5682")`.  Inputs are the argument list
and the results of the `local_ip()` and `local_ipv6()` lookups (external
collaborators).  `usageExit` is the `std::process::exit(1)` on a wrong
argument count; `aborted` is a panic of `local_ip().unwrap()`,
`local_ipv6().unwrap()`, or of the `expect` calls when the looked-up address
is not of the requested family; only `listening` corresponds to the CoAP
listener being created (bound to the IPv6 address, port 5682). -/
def startup (args : List String) (localIpRes : Except String IpAddr)
    (localIpv6Res : Except String IpAddr) : StartupOutcome :=
  if args.length ≠ 5 then .usageExit
  else
    match localIpRes with
    | .error _ => .aborted
    | .ok a4 =>
      match a4 with
      | .v6 _ => .aborted
      | .v4 _ =>
        match localIpv6Res with
        | .error _ => .aborted
        | .ok a6 =>
          match a6 with
          | .v4 _ => .aborted
          | .v6 addr6 => .listening addr6

/-- The list does not start with a digit (the boundary after a greedy
`[0-9]+`). -/
def noDigitHead : List Char → Prop
  | [] => True
  | c :: _ => isDigitChar c = false

/-- A digit is not a comma. -/
theorem digit_ne_comma {c : Char} (h : isDigitChar c = true) : c ≠ ',' := by
  intro e
  subst e
  exact absurd h (by decide)

/-- A digit is not a minus sign. -/
theorem digit_ne_minus {c : Char} (h : isDigitChar c = true) : c ≠ '-' := by
  intro e
  subst e
  exact absurd h (by decide)

/-- Digits are ASCII. -/
theorem digit_ascii {c : Char} (h : isDigitChar c = true) : c.toNat < 128 := by
  simp only [isDigitChar, Bool.and_eq_true, decide_eq_true_eq] at h
  obtain ⟨_, h2⟩ := h
  rw [Char.le_def] at h2
  have := UInt32.toNat_le_of_le (n := c.val) (m := 57) (by decide) h2
  exact Nat.lt_of_le_of_lt this (by decide)

/-- Hex characters are ASCII. -/
theorem hex_ascii {c : Char} (h : isHexChar c = true) : c.toNat < 128 := by
  simp only [isHexChar, Bool.or_eq_true, Bool.and_eq_true, decide_eq_true_eq] at h
  rcases h with (⟨_, h2⟩ | ⟨_, h2⟩) | hd
  · rw [Char.le_def] at h2
    have := UInt32.toNat_le_of_le (n := c.val) (m := 102) (by decide) h2
    exact Nat.lt_of_le_of_lt this (by decide)
  · rw [Char.le_def] at h2
    have := UInt32.toNat_le_of_le (n := c.val) (m := 70) (by decide) h2
    exact Nat.lt_of_le_of_lt this (by decide)
  · exact digit_ascii hd

/-- The prefix kept by `takeWhile` satisfies the predicate throughout. -/
theorem all_takeWhile (p : Char → Bool) (l : List Char) :
    (l.takeWhile p).all p = true := by
  induction l with
  | nil => rfl
  | cons c rest ih =>
    by_cases h : p c = true
    · simp [List.takeWhile_cons, h, ih]
    · simp [List.takeWhile_cons, h]

/-- After dropping all leading digits, the remainder does not start with a
digit. -/
theorem noDigitHead_dropWhile (l : List Char) :
    noDigitHead (l.dropWhile isDigitChar) := by
  induction l with
  | nil => trivial
  | cons c rest ih =>
    by_cases h : isDigitChar c = true
    · simpa [List.dropWhile_cons, h] using ih
    · simp only [List.dropWhile_cons, h, if_false]
      simpa [noDigitHead] using h

/-- Dropping digits from an all-digit prefix followed by a non-digit boundary
removes exactly the prefix. -/
theorem dropWhile_digits_append {ds r : List Char}
    (hall : ds.all isDigitChar = true) (hr : noDigitHead r) :
    (ds ++ r).dropWhile isDigitChar = r := by
  induction ds with
  | nil =>
    cases r with
    | nil => rfl
    | cons c t =>
      simp only [noDigitHead] at hr
      simp [List.dropWhile_cons, hr]
  | cons d ds' ih =>
    simp only [List.all_cons, Bool.and_eq_true] at hall
    simp [List.dropWhile_cons, hall.1, ih hall.2]

/-- Soundness of the `[0-9]+` scanner: success splits the input into a
non-empty digit prefix and a remainder that does not start with a digit. -/
theorem matchDigits1_sound {l r : List Char} (h : matchDigits1 l = some r) :
    ∃ ds, ds ≠ [] ∧ ds.all isDigitChar = true ∧ l = ds ++ r ∧ noDigitHead r := by
  cases l with
  | nil => simp [matchDigits1] at h
  | cons c rest =>
    by_cases hc : isDigitChar c = true
    · simp only [matchDigits1, hc, if_true, Option.some.injEq] at h
      refine ⟨(c :: rest).takeWhile isDigitChar, ?_, all_takeWhile _ _, ?_, ?_⟩
      · simp [List.takeWhile_cons, hc]
      · rw [← h]
        exact (List.takeWhile_append_dropWhile (p := isDigitChar) (l := c :: rest)).symm
      · rw [← h]
        exact noDigitHead_dropWhile _
    · simp [matchDigits1, hc] at h

/-- Completeness of the `[0-9]+` scanner: it consumes a non-empty digit
prefix exactly when the remainder does not start with a digit. -/
theorem matchDigits1_complete {ds r : List Char} (hne : ds ≠ [])
    (hall : ds.all isDigitChar = true) (hr : noDigitHead r) :
    matchDigits1 (ds ++ r) = some r := by
  cases ds with
  | nil => exact absurd rfl hne
  | cons d ds' =>
    simp only [List.all_cons, Bool.and_eq_true] at hall
    simp only [List.cons_append, matchDigits1, hall.1, if_true, Option.some.injEq]
    rw [← List.cons_append]
    exact dropWhile_digits_append (by simp [List.all_cons, hall.1, hall.2]) hr

/-- A non-empty all-digit list is a numeric token. -/
theorem isNumTok_of_digits {ds : List Char} (hne : ds ≠ [])
    (hall : ds.all isDigitChar = true) : isNumTok ds = true := by
  cases ds with
  | nil => exact absurd rfl hne
  | cons d t =>
    simp only [List.all_cons, Bool.and_eq_true] at hall
    have hd : d ≠ '-' := digit_ne_minus hall.1
    simp [isNumTok, hd, List.all_cons, hall.1, hall.2]

/-- A minus sign followed by a non-empty all-digit list is a numeric token. -/
theorem isNumTok_minus_digits {ds : List Char} (hne : ds ≠ [])
    (hall : ds.all isDigitChar = true) : isNumTok ('-' :: ds) = true := by
  simp [isNumTok, List.isEmpty_iff, hne, hall]

/-- Soundness of `isNumTok`: a numeric token is a non-empty digit list with
an optional leading minus sign. -/
theorem isNumTok_sound {b : List Char} (h : isNumTok b = true) :
    ∃ ds, ds ≠ [] ∧ ds.all isDigitChar = true ∧ (b = ds ∨ b = '-' :: ds) := by
  unfold isNumTok at h
  by_cases h1 : b.head? = some '-'
  · rw [if_pos h1] at h
    cases b with
    | nil => simp at h1
    | cons c t =>
      simp only [List.head?_cons, Option.some.injEq] at h1
      subst h1
      simp only [List.tail_cons, Bool.and_eq_true, Bool.not_eq_true',
        List.isEmpty_eq_false] at h
      exact ⟨t, h.1, h.2, Or.inr rfl⟩
  · rw [if_neg h1] at h
    simp only [Bool.and_eq_true, Bool.not_eq_true', List.isEmpty_eq_false] at h
    exact ⟨b, h.1, h.2, Or.inl rfl⟩

/-- No character of a numeric token is a comma. -/
theorem isNumTok_no_comma {b : List Char} (h : isNumTok b = true) :
    ∀ c ∈ b, c ≠ ',' := by
  obtain ⟨ds, _, hall, hcase⟩ := isNumTok_sound h
  intro c hc
  rcases hcase with rfl | rfl
  · exact digit_ne_comma (List.all_eq_true.mp hall c hc)
  · rcases List.mem_cons.mp hc with rfl | hc2
    · decide
    · exact digit_ne_comma (List.all_eq_true.mp hall c hc2)

/-- Soundness of the group scanner: success peels off one well-formed
`,-?[0-9]+` group, leaving a remainder that does not start with a digit. -/
theorem matchGroup_sound {l r : List Char} (h : matchGroup l = some r) :
    ∃ g, IsGroup g ∧ l = g ++ r ∧ noDigitHead r := by
  cases l with
  | nil => simp [matchGroup] at h
  | cons c t =>
    by_cases hc : c = ','
    · subst hc
      cases t with
      | nil => simp [matchGroup, matchDigits1] at h
      | cons d t2 =>
        by_cases hd : d = '-'
        · subst hd
          simp only [matchGroup, List.head?_cons, List.tail_cons,
            if_pos rfl, if_true] at h
          obtain ⟨ds, hne, hall, heq, hr⟩ := matchDigits1_sound h
          refine ⟨',' :: '-' :: ds, ⟨'-' :: ds, rfl, isNumTok_minus_digits hne hall⟩,
            ?_, hr⟩
          simp [heq]
        · simp only [matchGroup, List.head?_cons, List.tail_cons,
            if_pos rfl, if_true,
            if_neg (by simp [hd] : ¬ (some d = some '-'))] at h
          obtain ⟨ds, hne, hall, heq, hr⟩ := matchDigits1_sound h
          refine ⟨',' :: ds, ⟨ds, rfl, isNumTok_of_digits hne hall⟩, ?_, hr⟩
          simp [heq]
    · simp only [matchGroup, List.head?_cons,
        if_neg (by simp [hc] : ¬ (some c = some ','))] at h
      simp at h

/-- Completeness of the group scanner on an unsigned token. -/
theorem matchGroup_complete_digits {ds r : List Char} (hne : ds ≠ [])
    (hall : ds.all isDigitChar = true) (hr : noDigitHead r) :
    matchGroup ((',' :: ds) ++ r) = some r := by
  cases ds with
  | nil => exact absurd rfl hne
  | cons d ds' =>
    have hd0 : isDigitChar d = true := by
      simp only [List.all_cons, Bool.and_eq_true] at hall
      exact hall.1
    simp only [List.cons_append, matchGroup, List.head?_cons, List.tail_cons,
      if_pos rfl, if_neg (by simp [digit_ne_minus hd0] : ¬ (some d = some '-'))]
    rw [← List.cons_append]
    exact matchDigits1_complete hne hall hr

/-- Completeness of the group scanner on a minus-signed token. -/
theorem matchGroup_complete_minus {ds r : List Char} (hne : ds ≠ [])
    (hall : ds.all isDigitChar = true) (hr : noDigitHead r) :
    matchGroup ((',' :: '-' :: ds) ++ r) = some r := by
  simp only [List.cons_append, matchGroup, List.head?_cons, List.tail_cons,
    if_pos rfl, if_true]
  exact matchDigits1_complete hne hall hr

/-- Completeness of the group scanner: it accepts any well-formed group when
the remainder does not start with a digit. -/
theorem matchGroup_complete {g r : List Char} (hg : IsGroup g)
    (hr : noDigitHead r) : matchGroup (g ++ r) = some r := by
  obtain ⟨b, rfl, hb⟩ := hg
  obtain ⟨ds, hne, hall, hcase⟩ := isNumTok_sound hb
  rcases hcase with h1 | h1 <;> rw [h1]
  · exact matchGroup_complete_digits hne hall hr
  · exact matchGroup_complete_minus hne hall hr

/-- The concatenation of well-formed groups does not start with a digit (it is
empty or starts with a comma). -/
theorem flatten_groups_noDigitHead {gs : List (List Char)}
    (h : ∀ g ∈ gs, IsGroup g) : noDigitHead gs.flatten := by
  cases gs with
  | nil => trivial
  | cons g gs' =>
    obtain ⟨b, rfl, _⟩ := h g (by simp)
    simp only [List.flatten_cons, List.cons_append]
    show isDigitChar ',' = false
    decide

/-- Soundness of the repeated-group scanner: consuming the whole input as `n`
groups decomposes it into a list of `n` well-formed groups. -/
theorem matchGroups_sound :
    ∀ (n : Nat) (l : List Char), matchGroups n l = some [] →
      ∃ gs : List (List Char), gs.length = n ∧ (∀ g ∈ gs, IsGroup g) ∧
        l = gs.flatten := by
  intro n
  induction n with
  | zero =>
    intro l h
    simp only [matchGroups, Option.some.injEq] at h
    exact ⟨[], rfl, by simp, by simp [h]⟩
  | succ n ih =>
    intro l h
    simp only [matchGroups, Option.bind_eq_some] at h
    obtain ⟨r, h1, h2⟩ := h
    obtain ⟨g, hg, hl, _⟩ := matchGroup_sound h1
    obtain ⟨gs, hlen, hgs, hr⟩ := ih r h2
    refine ⟨g :: gs, by simp [hlen], ?_, by simp [hl, hr]⟩
    intro x hx
    rcases List.mem_cons.mp hx with rfl | hx2
    · exact hg
    · exact hgs x hx2

/-- Completeness of the repeated-group scanner: it consumes exactly the
concatenation of any list of well-formed groups. -/
theorem matchGroups_complete {gs : List (List Char)}
    (h : ∀ g ∈ gs, IsGroup g) :
    matchGroups gs.length gs.flatten = some [] := by
  induction gs with
  | nil => rfl
  | cons g gs' ih =>
    simp only [List.length_cons, List.flatten_cons, matchGroups]
    rw [matchGroup_complete (h g (by simp))
      (flatten_groups_noDigitHead (fun x hx => h x (by simp [hx])))]
    exact ih (fun x hx => h x (by simp [hx]))

/-- Claim C3: the schema validator accepts a payload iff the whole string
(anchored, not a substring search) is exactly 16 hexadecimal characters
followed by exactly 8 groups of `,`, an optional `-`, and one or more digits,
with no other characters anywhere.  In particular it rejects the empty
string, extra or missing fields, non-hex device ids, and leading or trailing
text (none of which admit such a decomposition). -/
theorem is_valid_iff_SchemaMatch (p : List Char) :
    is_valid p = true ↔ SchemaMatch p := by
  constructor
  · intro h
    simp only [is_valid, Bool.and_eq_true, beq_iff_eq] at h
    obtain ⟨⟨hlen, hhex⟩, hgroups⟩ := h
    obtain ⟨gs, hgslen, hgs, hflat⟩ := matchGroups_sound 8 (p.drop 16) hgroups
    refine ⟨p.take 16, gs, ?_, hlen, hhex, hgslen, hgs⟩
    rw [← hflat, List.take_append_drop]
  · rintro ⟨id, gs, rfl, hid, hhex, hlen, hgs⟩
    have ht : (id ++ gs.flatten).take 16 = id := by
      rw [← hid]
      exact List.take_left id gs.flatten
    have hd : (id ++ gs.flatten).drop 16 = gs.flatten := by
      rw [← hid]
      exact List.drop_left id gs.flatten
    simp only [is_valid, Bool.and_eq_true, beq_iff_eq, ht, hd]
    refine ⟨⟨hid, hhex⟩, ?_⟩
    rw [← hlen]
    exact matchGroups_complete hgs

/-- Splitting a comma-free list on commas yields that single piece. -/
theorem splitComma_no_comma {b : List Char} (h : ∀ c ∈ b, c ≠ ',') :
    splitComma b = [b] := by
  induction b with
  | nil => rfl
  | cons c t ih =>
    have hc : c ≠ ',' := h c (by simp)
    have ht := ih (fun x hx => h x (by simp [hx]))
    simp [splitComma, hc, ht]

/-- Splitting peels off a comma-free prefix at its terminating comma. -/
theorem splitComma_append {b l : List Char} (h : ∀ c ∈ b, c ≠ ',') :
    splitComma (b ++ ',' :: l) = b :: splitComma l := by
  induction b with
  | nil => simp [splitComma]
  | cons c t ih =>
    have hc : c ≠ ',' := h c (by simp)
    have ht := ih (fun x hx => h x (by simp [hx]))
    simp [splitComma, hc, ht]

/-- Splitting a comma-free token followed by the concatenation of well-formed
groups yields the token followed by the groups' bodies (their tails, after
the leading comma). -/
theorem splitComma_flatten_groups {b : List Char} {gs : List (List Char)}
    (hb : ∀ c ∈ b, c ≠ ',') (h : ∀ g ∈ gs, IsGroup g) :
    splitComma (b ++ gs.flatten) = b :: gs.map List.tail := by
  induction gs generalizing b with
  | nil => simp [splitComma_no_comma hb]
  | cons g gs' ih =>
    obtain ⟨b2, rfl, hb2⟩ := h g (by simp)
    simp only [List.flatten_cons, List.cons_append, List.map_cons, List.tail_cons]
    rw [splitComma_append hb]
    rw [ih (isNumTok_no_comma hb2) (fun x hx => h x (by simp [hx]))]

/-- A payload accepted by the validator has at least 17 characters: the
slices `payload[..16]` and `payload[17..]` are in bounds. -/
theorem valid_length {p : List Char} (h : is_valid p = true) : 17 ≤ p.length := by
  obtain ⟨id, gs, rfl, hid, _, hlen, hgs⟩ := (is_valid_iff_SchemaMatch _).mp h
  cases gs with
  | nil => simp at hlen
  | cons g1 gs' =>
    obtain ⟨b1, rfl, _⟩ := hgs g1 (by simp)
    simp [List.length_append, List.flatten_cons, hid]
    omega

/-- Every character of an accepted payload is ASCII: the byte indices 16 and
17 that the Rust code slices at coincide with character indices, and slicing
cannot hit a multi-byte character boundary. -/
theorem valid_ascii {p : List Char} (h : is_valid p = true) :
    ∀ c ∈ p, c.toNat < 128 := by
  obtain ⟨id, gs, rfl, _, hhex, _, hgs⟩ := (is_valid_iff_SchemaMatch _).mp h
  intro c hc
  rcases List.mem_append.mp hc with hc | hc
  · exact hex_ascii (List.all_eq_true.mp hhex c hc)
  · obtain ⟨g, hg, hcg⟩ := List.mem_flatten.mp hc
    obtain ⟨b, rfl, hb⟩ := hgs g hg
    rcases List.mem_cons.mp hcg with rfl | hcb
    · decide
    · obtain ⟨ds, _, hall, hcase⟩ := isNumTok_sound hb
      rcases hcase with rfl | rfl
      · exact digit_ascii (List.all_eq_true.mp hall c hcb)
      · rcases List.mem_cons.mp hcb with rfl | hcd
        · decide
        · exact digit_ascii (List.all_eq_true.mp hall c hcd)

/-- On an accepted payload, the substring from character 17 on splits on `,`
into exactly 8 tokens, all numeric. -/
theorem split_valid {p : List Char} (h : is_valid p = true) :
    ∃ bs : List (List Char), splitComma (p.drop 17) = bs ∧ bs.length = 8 ∧
      ∀ b ∈ bs, isNumTok b = true := by
  obtain ⟨id, gs, rfl, hid, _, hlen, hgs⟩ := (is_valid_iff_SchemaMatch _).mp h
  cases gs with
  | nil => simp at hlen
  | cons g1 gs' =>
    obtain ⟨b1, rfl, hb1⟩ := hgs g1 (by simp)
    refine ⟨b1 :: gs'.map List.tail, ?_, ?_, ?_⟩
    · have h16 : (id ++ ((',' :: b1) :: gs').flatten).drop 16 =
          ((',' :: b1) :: gs').flatten := by
        rw [← hid]
        exact List.drop_left _ _
      rw [show (17 : Nat) = 16 + 1 from rfl, ← List.drop_drop, h16]
      simp only [List.flatten_cons, List.cons_append, List.drop_succ_cons,
        List.drop_zero]
      exact splitComma_flatten_groups (isNumTok_no_comma hb1)
        (fun x hx => hgs x (by simp [hx]))
    · simp only [List.length_cons, List.length_map]
      simp only [List.length_cons] at hlen
      omega
    · intro b hb
      rcases List.mem_cons.mp hb with rfl | hb2
      · exact hb1
      · obtain ⟨g, hg, rfl⟩ := List.mem_map.mp hb2
        obtain ⟨bg, rfl, hbg⟩ := hgs g (by simp [hg])
        simpa using hbg

/-- Every numeric token parses successfully. -/
theorem parseNum_isNumTok {b : List Char} (h : isNumTok b = true) :
    ∃ v : Int, parseNum b = some v := by
  obtain ⟨ds, hne, hall, hcase⟩ := isNumTok_sound h
  have hemp : ds.isEmpty = false := by
    cases ds with
    | nil => exact absurd rfl hne
    | cons _ _ => rfl
  have hds : parseDigits ds = some (ds.foldl (fun a c => a * 10 + (c.toNat - 48)) 0) := by
    simp [parseDigits, hemp, hall]
  rcases hcase with h1 | h1
  · have hh : ¬ (ds.head? = some '-') := by
      cases ds with
      | nil => simp
      | cons d t =>
        simp only [List.all_cons, Bool.and_eq_true] at hall
        simp [digit_ne_minus hall.1]
    refine ⟨((ds.foldl (fun a c => a * 10 + (c.toNat - 48)) 0 : Nat) : Int), ?_⟩
    simp [parseNum, h1, hh, hds]
  · refine ⟨-((ds.foldl (fun a c => a * 10 + (c.toNat - 48)) 0 : Nat) : Int), ?_⟩
    simp [parseNum, h1, hds]

/-- On an accepted payload the decoder succeeds, and each named field is the
parse of the token at positions 1–7 of the split (position 0 is read by no
field); the device id is the first 16 characters and the timestamp the given
ingestion instant. -/
theorem decodePoint_valid {p : List Char} (h : is_valid p = true) (now : Int) :
    ∃ v1 v2 v3 v4 v5 v6 v7 : Int,
      ((splitComma (p.drop 17)).get? 1).bind parseNum = some v1 ∧
      ((splitComma (p.drop 17)).get? 2).bind parseNum = some v2 ∧
      ((splitComma (p.drop 17)).get? 3).bind parseNum = some v3 ∧
      ((splitComma (p.drop 17)).get? 4).bind parseNum = some v4 ∧
      ((splitComma (p.drop 17)).get? 5).bind parseNum = some v5 ∧
      ((splitComma (p.drop 17)).get? 6).bind parseNum = some v6 ∧
      ((splitComma (p.drop 17)).get? 7).bind parseNum = some v7 ∧
      decodePoint p now = some
        { device_eui64 := p.take 16, temp := v1, hum := v2, pres := v3,
          cl1 := v4, cl2 := v5, rssi := v6, vbat := v7, time := now } := by
  obtain ⟨bs, hsplit, hlen, hnum⟩ := split_valid h
  have htok : ∀ k : Nat, k < 8 →
      ∃ t v, bs.get? k = some t ∧ parseNum t = some v := by
    intro k hk
    have hklt : k < bs.length := by omega
    obtain ⟨v, hv⟩ := parseNum_isNumTok (hnum _ (bs.get_mem k hklt))
    exact ⟨bs.get ⟨k, hklt⟩, v, List.get?_eq_get hklt, hv⟩
  obtain ⟨t1, v1, ht1, hv1⟩ := htok 1 (by omega)
  obtain ⟨t2, v2, ht2, hv2⟩ := htok 2 (by omega)
  obtain ⟨t3, v3, ht3, hv3⟩ := htok 3 (by omega)
  obtain ⟨t4, v4, ht4, hv4⟩ := htok 4 (by omega)
  obtain ⟨t5, v5, ht5, hv5⟩ := htok 5 (by omega)
  obtain ⟨t6, v6, ht6, hv6⟩ := htok 6 (by omega)
  obtain ⟨t7, v7, ht7, hv7⟩ := htok 7 (by omega)
  have e1 : ((splitComma (p.drop 17)).get? 1).bind parseNum = some v1 := by
    rw [hsplit, ht1]
    simpa using hv1
  have e2 : ((splitComma (p.drop 17)).get? 2).bind parseNum = some v2 := by
    rw [hsplit, ht2]
    simpa using hv2
  have e3 : ((splitComma (p.drop 17)).get? 3).bind parseNum = some v3 := by
    rw [hsplit, ht3]
    simpa using hv3
  have e4 : ((splitComma (p.drop 17)).get? 4).bind parseNum = some v4 := by
    rw [hsplit, ht4]
    simpa using hv4
  have e5 : ((splitComma (p.drop 17)).get? 5).bind parseNum = some v5 := by
    rw [hsplit, ht5]
    simpa using hv5
  have e6 : ((splitComma (p.drop 17)).get? 6).bind parseNum = some v6 := by
    rw [hsplit, ht6]
    simpa using hv6
  have e7 : ((splitComma (p.drop 17)).get? 7).bind parseNum = some v7 := by
    rw [hsplit, ht7]
    simpa using hv7
  refine ⟨v1, v2, v3, v4, v5, v6, v7, e1, e2, e3, e4, e5, e6, e7, ?_⟩
  simp only [decodePoint, e1, e2, e3, e4, e5, e6, e7]

/-- The decoded point depends only on the first 16 characters and on tokens
1–7 of the split: two accepted payloads agreeing there (their token 0 may
differ arbitrarily) decode to the same point. -/
theorem decodePoint_congr {p q : List Char} (hp : is_valid p = true)
    (hq : is_valid q = true) (now : Int) (h16 : q.take 16 = p.take 16)
    (htoks : ∀ k, 1 ≤ k → k ≤ 7 →
      (splitComma (q.drop 17)).get? k = (splitComma (p.drop 17)).get? k) :
    decodePoint q now = decodePoint p now := by
  obtain ⟨v1, v2, v3, v4, v5, v6, v7, e1, e2, e3, e4, e5, e6, e7, hdec⟩ :=
    decodePoint_valid hp now
  obtain ⟨w1, w2, w3, w4, w5, w6, w7, f1, f2, f3, f4, f5, f6, f7, hdecq⟩ :=
    decodePoint_valid hq now
  rw [htoks 1 (by omega) (by omega), e1] at f1
  rw [htoks 2 (by omega) (by omega), e2] at f2
  rw [htoks 3 (by omega) (by omega), e3] at f3
  rw [htoks 4 (by omega) (by omega), e4] at f4
  rw [htoks 5 (by omega) (by omega), e5] at f5
  rw [htoks 6 (by omega) (by omega), e6] at f6
  rw [htoks 7 (by omega) (by omega), e7] at f7
  have g1 := Option.some.inj f1
  have g2 := Option.some.inj f2
  have g3 := Option.some.inj f3
  have g4 := Option.some.inj f4
  have g5 := Option.some.inj f5
  have g6 := Option.some.inj f6
  have g7 := Option.some.inj f7
  rw [hdecq, hdec, h16, ← g1, ← g2, ← g3, ← g4, ← g5, ← g6, ← g7]

/-- The handler on a rejected request (wrong method or schema-invalid
payload): no write call, and the error response is returned on whatever
response object the transport provided. -/
theorem handle_reject (bucket : String) {req : CoapRequest} (now : Int)
    {s : List Char} (wr : Except WriteError Unit)
    (hutf : utf8Decode req.message.payload = some s)
    (hbad : getMethod req ≠ Method.put ∨ is_valid s = false) :
    handle bucket req now wr = .completed [] (req.response.map errorResponse) := by
  have hcond : (is_valid s && decide (getMethod req = Method.put)) = false := by
    rcases hbad with hm | hv
    · simp [hm]
    · simp [hv]
  simp [handle, hutf, hcond]

/-- The handler on an accepted request: it decodes one point; a failing write
panics after the single write call, a successful write completes with the
success response. -/
theorem handle_accept (bucket : String) {req : CoapRequest} (now : Int)
    {s : List Char} (hutf : utf8Decode req.message.payload = some s)
    (hmeth : getMethod req = Method.put) (hval : is_valid s = true) :
    ∃ pt, decodePoint s now = some pt ∧
      (∀ e : WriteError,
        handle bucket req now (.error e) = .panicked [⟨bucket, [pt]⟩]) ∧
      handle bucket req now (.ok ()) =
        .completed [⟨bucket, [pt]⟩] (req.response.map successResponse) := by
  obtain ⟨v1, v2, v3, v4, v5, v6, v7, _, _, _, _, _, _, _, hdec⟩ :=
    decodePoint_valid hval now
  refine ⟨_, hdec, ?_, ?_⟩
  · intro e
    simp [handle, hutf, hval, hmeth, hdec]
  · simp [handle, hutf, hval, hmeth, hdec]

/-- The destination bucket name used in concrete instances below. -/
def exampleBucket : String :=
  "telemetry"

/-- A five-element argument vector (only its length matters to `startup`). -/
def exampleArgs : List String :=
  List.replicate 5 exampleBucket

/-- An error message for a failed address lookup. -/
def noAddrMsg : String :=
  "no local address found"

/-- The spec's example telemetry payload (§6), as characters. -/
def examplePayload : List Char :=
  "0004A30B00112233,0,215,512,9981,310,287,-72,3298".data

/-- The example payload with its trailing field missing (schema-invalid). -/
def truncatedPayload : List Char :=
  "0004A30B00112233,0,215,512,9981,310,287,-72".data

/-- The truncated payload as raw request bytes. -/
def truncatedPayloadBytes : List Nat :=
  truncatedPayload.map Char.toNat

/-- The same payload as raw request bytes (it is ASCII). -/
def examplePayloadBytes : List Nat :=
  examplePayload.map Char.toNat

/-- A response object as the transport would hand it to the handler. -/
def emptyResponseObj : CoapResponse :=
  ⟨⟨⟨.empty⟩, []⟩⟩

/-- A well-formed PUT request carrying the example payload. -/
def validPutRequest : CoapRequest :=
  ⟨⟨⟨.request .put⟩, examplePayloadBytes⟩, some emptyResponseObj⟩

/-- The data point the example payload decodes to (ingestion instant 0):
note `temp` is the SECOND numeric field (215) and `vbat` the LAST (3298);
the first numeric field (0) feeds no field. -/
def examplePoint : GasSentinelDataPoint :=
  { device_eui64 := "0004A30B00112233".data, temp := 215, hum := 512,
    pres := 9981, cl1 := 310, cl2 := 287, rssi := -72, vbat := 3298, time := 0 }

/-- Claim C1 is false as stated: on the spec's own example payload (which the
validator accepts), the substring from character 17 splits on `,` into 8
tokens, not 9 — character 17 is the first character after the device id's
separating comma, so the split has no leading artifact piece. -/
theorem c1_nine_tokens_counterexample :
    is_valid examplePayload = true ∧
      (splitComma (examplePayload.drop 17)).length ≠ 9 := by
  constructor
  · decide
  · decide

/-- Claim C1 (amended): for every payload accepted by the schema validator,
the decoder splits the substring starting at character 17 on `,` into exactly
8 tokens; positions 1 through 7 of that split map respectively to the
temperature, humidity, pressure, cl1, cl2, rssi and vbat fields of the
constructed data point, and position 0 (the first numeric field) is read by
none of the named fields: any accepted payload agreeing on the device id and
on tokens 1–7 decodes to the same point. -/
theorem c1_split_mapping {p : List Char} (h : is_valid p = true) (now : Int) :
    (splitComma (p.drop 17)).length = 8 ∧
    ∃ pt, decodePoint p now = some pt ∧
      ((splitComma (p.drop 17)).get? 1).bind parseNum = some pt.temp ∧
      ((splitComma (p.drop 17)).get? 2).bind parseNum = some pt.hum ∧
      ((splitComma (p.drop 17)).get? 3).bind parseNum = some pt.pres ∧
      ((splitComma (p.drop 17)).get? 4).bind parseNum = some pt.cl1 ∧
      ((splitComma (p.drop 17)).get? 5).bind parseNum = some pt.cl2 ∧
      ((splitComma (p.drop 17)).get? 6).bind parseNum = some pt.rssi ∧
      ((splitComma (p.drop 17)).get? 7).bind parseNum = some pt.vbat ∧
      ∀ q : List Char, is_valid q = true → q.take 16 = p.take 16 →
        (∀ k, 1 ≤ k → k ≤ 7 →
          (splitComma (q.drop 17)).get? k = (splitComma (p.drop 17)).get? k) →
        decodePoint q now = decodePoint p now := by
  obtain ⟨bs, hsplit, hlen, _⟩ := split_valid h
  obtain ⟨v1, v2, v3, v4, v5, v6, v7, e1, e2, e3, e4, e5, e6, e7, hdec⟩ :=
    decodePoint_valid h now
  refine ⟨by rw [hsplit]; exact hlen, _, hdec, e1, e2, e3, e4, e5, e6, e7, ?_⟩
  intro q hq h16 htoks
  exact decodePoint_congr h hq now h16 htoks

/-- Claim C1 witness: the amended statement evaluated on the example payload:
the validator accepts it and the split has exactly 8 tokens. -/
theorem c1_split_mapping_witness :
    is_valid examplePayload = true ∧
      (splitComma (examplePayload.drop 17)).length = 8 :=
  ⟨by decide, (c1_split_mapping (by decide) 0).1⟩

/-- Claim C2: every accepted payload decodes to a data point whose device id
is the payload's first 16 characters; the first of the 8 numeric fields after
the id (token 0 of the split) is mapped to no named measurement field — two
accepted payloads agreeing on the id and tokens 1–7 decode identically, so
the first numeric field is discarded. -/
theorem c2_device_id_and_discarded_field {p : List Char}
    (h : is_valid p = true) (now : Int) :
    ∃ pt, decodePoint p now = some pt ∧ pt.device_eui64 = p.take 16 ∧
      ∀ q : List Char, is_valid q = true → q.take 16 = p.take 16 →
        (∀ k, 1 ≤ k → k ≤ 7 →
          (splitComma (q.drop 17)).get? k = (splitComma (p.drop 17)).get? k) →
        decodePoint q now = decodePoint p now := by
  obtain ⟨v1, v2, v3, v4, v5, v6, v7, _, _, _, _, _, _, _, hdec⟩ :=
    decodePoint_valid h now
  refine ⟨_, hdec, rfl, ?_⟩
  intro q hq h16 htoks
  exact decodePoint_congr h hq now h16 htoks

/-- Claim C2 witness: on the example payload the decoder returns a point with
device id equal to the first 16 characters. -/
theorem c2_device_id_witness :
    ∃ pt, decodePoint examplePayload 0 = some pt ∧
      pt.device_eui64 = examplePayload.take 16 :=
  (c2_device_id_and_discarded_field (by decide) 0).imp
    (fun pt hpt => ⟨hpt.1, hpt.2.1⟩)

/-- Claim C9: for every payload string accepted by the pattern, the
decode-and-build step cannot panic: the payload has at least 17 characters
and is all-ASCII (so the byte slices `payload[..16]` and `payload[17..]` are
in bounds and on character boundaries), `split(',').nth(k)` is `Some` for
every k from 1 to 7, every such token parses as a number, and the decoder
returns `Some`. -/
theorem c9_decode_never_panics {p : List Char} (h : is_valid p = true)
    (now : Int) :
    17 ≤ p.length ∧ (∀ c ∈ p, c.toNat < 128) ∧
    (∀ k, 1 ≤ k → k ≤ 7 →
      ∃ t, (splitComma (p.drop 17)).get? k = some t ∧
        ∃ v, parseNum t = some v) ∧
    ∃ pt, decodePoint p now = some pt := by
  obtain ⟨bs, hsplit, hlen, hnum⟩ := split_valid h
  obtain ⟨v1, v2, v3, v4, v5, v6, v7, _, _, _, _, _, _, _, hdec⟩ :=
    decodePoint_valid h now
  refine ⟨valid_length h, valid_ascii h, ?_, _, hdec⟩
  intro k h1k hk7
  have hklt : k < bs.length := by omega
  refine ⟨bs.get ⟨k, hklt⟩, ?_, parseNum_isNumTok (hnum _ (bs.get_mem k hklt))⟩
  rw [hsplit]
  exact List.get?_eq_get hklt

/-- Claim C9 witness: the no-panic facts evaluated on the example payload. -/
theorem c9_decode_never_panics_witness :
    17 ≤ examplePayload.length ∧
      ∃ pt, decodePoint examplePayload 0 = some pt :=
  ⟨(c9_decode_never_panics (by decide) 0).1,
    (c9_decode_never_panics (by decide) 0).2.2.2⟩

/-- Claim C4: for every request for which the transport provides a response
object (and whose payload is text, so the schema check applies): with the PUT
method, a schema-valid payload and a successful write, the handler completes
with a response whose body is empty and whose code is the Valid success code;
with a wrong method or a schema-invalid payload, it completes with a response
whose body is the single byte `"0"` and whose code is BadOption, whatever the
sink would have answered. -/
theorem c4_response_codes (bucket : String) (req : CoapRequest) (now : Int)
    {m : CoapResponse} {s : List Char}
    (hresp : req.response = some m)
    (hutf : utf8Decode req.message.payload = some s) :
    (getMethod req = Method.put → is_valid s = true →
      ∃ pt, handle bucket req now (.ok ()) =
          .completed [⟨bucket, [pt]⟩] (some (successResponse m)) ∧
        (successResponse m).message.payload = [] ∧
        (successResponse m).message.header.code = .response .valid) ∧
    ((getMethod req ≠ Method.put ∨ is_valid s = false) →
      ∀ wr, handle bucket req now wr =
          .completed [] (some (errorResponse m)) ∧
        (errorResponse m).message.payload = [48] ∧
        (errorResponse m).message.header.code = .response .badOption) := by
  constructor
  · intro hmeth hval
    obtain ⟨pt, _, _, hok⟩ := handle_accept bucket now hutf hmeth hval
    exact ⟨pt, by rw [hok, hresp]; rfl, rfl, rfl⟩
  · intro hbad wr
    exact ⟨by rw [handle_reject bucket now wr hutf hbad, hresp]; rfl, rfl, rfl⟩

/-- Claim C4 witness: at a concrete PUT request with the example payload and
a successful write, the handler answers Valid with empty body; at the same
request with the GET method it answers BadOption with body `"0"`. -/
theorem c4_response_codes_witness :
    (∃ pt, handle exampleBucket validPutRequest 0 (.ok ()) =
        .completed [⟨exampleBucket, [pt]⟩] (some (successResponse emptyResponseObj)) ∧
      (successResponse emptyResponseObj).message.payload = [] ∧
      (successResponse emptyResponseObj).message.header.code = .response .valid) ∧
    (handle exampleBucket ⟨⟨⟨.request .get⟩, examplePayloadBytes⟩, some emptyResponseObj⟩
        0 (.ok ()) = .completed [] (some (errorResponse emptyResponseObj)) ∧
      (errorResponse emptyResponseObj).message.payload = [48] ∧
      (errorResponse emptyResponseObj).message.header.code = .response .badOption) :=
  ⟨(c4_response_codes exampleBucket validPutRequest 0 (s := examplePayload)
      rfl (by decide)).1 rfl (by decide),
    (c4_response_codes exampleBucket ⟨⟨⟨.request .get⟩, examplePayloadBytes⟩,
        some emptyResponseObj⟩ 0 (s := examplePayload) rfl (by decide)).2
      (Or.inl (by decide)) (.ok ())⟩

/-- Claim C5: for every request whose method is not PUT or whose payload
fails schema validation, the storage sink's write operation is never invoked
— the handler issues zero write calls whatever the sink would answer — and
the handler completes with the error response on the response object the
transport provided (and with no output if it provided none). -/
theorem c5_no_write_on_reject {bucket : String} {req : CoapRequest}
    {now : Int} {s : List Char}
    (hutf : utf8Decode req.message.payload = some s)
    (hbad : getMethod req ≠ Method.put ∨ is_valid s = false)
    (wr : Except WriteError Unit) :
    (handle bucket req now wr).writeCalls = [] ∧
    handle bucket req now wr = .completed [] (req.response.map errorResponse) := by
  have h := handle_reject bucket now wr hutf hbad
  exact ⟨by rw [h]; rfl, h⟩

/-- Claim C5 witness: a PUT request with a truncated payload (missing the
last field) produces zero write calls and the error response. -/
theorem c5_no_write_on_reject_witness :
    (handle exampleBucket
        ⟨⟨⟨.request .put⟩, truncatedPayloadBytes⟩,
          some emptyResponseObj⟩ 0 (.ok ())).writeCalls = [] ∧
    handle exampleBucket
        ⟨⟨⟨.request .put⟩, truncatedPayloadBytes⟩,
          some emptyResponseObj⟩ 0 (.ok ()) =
      .completed [] ((some emptyResponseObj).map errorResponse) :=
  c5_no_write_on_reject
    (s := truncatedPayload)
    (by decide) (Or.inr (by decide)) (.ok ())

/-- Claim C6 is false as stated: a request whose payload is the single byte
0xFF (not valid UTF-8 text) and whose method is wrong (GET) is not recovered:
`String::from_utf8(request.message.payload.clone()).unwrap()` panics before
the schema check, so the handler raises an unhandled fault instead of
surfacing the fixed client-error response. -/
theorem c6_utf8_panic_counterexample :
    handle exampleBucket ⟨⟨⟨.request .get⟩, [255]⟩, some emptyResponseObj⟩ 0
      (.ok ()) = .panicked [] := by
  decide

/-- Claim C6 (amended): for every request whose payload is valid UTF-8 text
and whose method is wrong or whose payload fails the schema match, the
handler always recovers and surfaces the fixed client-error response, never
raising a fault; a payload that is not valid UTF-8 text instead panics the
handler at the `from_utf8(..).unwrap()`. -/
theorem c6_recovers_on_utf8_text {bucket : String} {req : CoapRequest}
    {now : Int} {s : List Char}
    (hutf : utf8Decode req.message.payload = some s)
    (hbad : getMethod req ≠ Method.put ∨ is_valid s = false)
    (wr : Except WriteError Unit) :
    handle bucket req now wr = .completed [] (req.response.map errorResponse) ∧
    ∀ ws, handle bucket req now wr ≠ .panicked ws := by
  have h := handle_reject bucket now wr hutf hbad
  refine ⟨h, ?_⟩
  intro ws hcontra
  rw [h] at hcontra
  exact HandlerResult.noConfusion hcontra

/-- Claim C6 witness: a GET request with a valid-UTF-8 (even schema-valid)
payload is recovered to the error response and does not panic. -/
theorem c6_recovers_on_utf8_text_witness :
    handle exampleBucket ⟨⟨⟨.request .get⟩, examplePayloadBytes⟩, some emptyResponseObj⟩
        0 (.ok ()) =
      .completed [] ((some emptyResponseObj).map errorResponse) ∧
    ∀ ws, handle exampleBucket
        ⟨⟨⟨.request .get⟩, examplePayloadBytes⟩, some emptyResponseObj⟩ 0 (.ok ()) ≠
      .panicked ws :=
  c6_recovers_on_utf8_text (s := examplePayload) (by decide)
    (Or.inl (by decide)) (.ok ())

/-- Claim C7: the code violates it — on a valid PUT request whose storage
write returns an error, the handler's `client.write(..).await.unwrap()`
panics, terminating the handling task instead of containing the failure.
The write call was issued; the handler then dies with no response. -/
theorem c7_write_failure_panics :
    handle exampleBucket validPutRequest 0 (.error .connectivity) =
      .panicked [⟨exampleBucket, [examplePoint]⟩] := by
  decide

/-- Claim C8: for every accepted request (PUT method, schema-valid payload),
the storage sink's write operation is invoked exactly once, and the sequence
of points passed to that single call contains exactly one data point —
whatever the sink answers. -/
theorem c8_exactly_one_write (bucket : String) (req : CoapRequest)
    (now : Int) {s : List Char}
    (hutf : utf8Decode req.message.payload = some s)
    (hmeth : getMethod req = Method.put) (hval : is_valid s = true)
    (wr : Except WriteError Unit) :
    ∃ pt, (handle bucket req now wr).writeCalls = [⟨bucket, [pt]⟩] := by
  obtain ⟨pt, _, herr, hok⟩ := handle_accept bucket now hutf hmeth hval
  refine ⟨pt, ?_⟩
  cases wr with
  | error e =>
    rw [herr e]
    rfl
  | ok u =>
    cases u
    rw [hok]
    rfl

/-- Claim C8 witness: the accepted example request issues exactly one write
call with exactly one point. -/
theorem c8_exactly_one_write_witness :
    ∃ pt, (handle exampleBucket validPutRequest 0 (.ok ())).writeCalls =
      [⟨exampleBucket, [pt]⟩] :=
  c8_exactly_one_write exampleBucket validPutRequest 0 (s := examplePayload)
    (by decide) rfl (by decide) (.ok ())

/-- Claim C10: unless the host reports both a local IPv4 address and a local
IPv6 address, `main` exits or panics before the CoAP listener is created
(and hence before any request is served); one address family alone is not
sufficient. -/
theorem c10_requires_both_families {args : List String}
    {r4 r6 : Except String IpAddr}
    (h : (∀ a, r4 ≠ .ok (.v4 a)) ∨ (∀ a, r6 ≠ .ok (.v6 a))) :
    startup args r4 r6 = .usageExit ∨ startup args r4 r6 = .aborted := by
  by_cases hargs : args.length ≠ 5
  · left
    simp [startup, hargs]
  · right
    rcases h with h4 | h6
    · cases r4 with
      | error e => simp [startup, hargs]
      | ok a =>
        cases a with
        | v4 x => exact absurd rfl (h4 x)
        | v6 x => simp [startup, hargs]
    · cases r4 with
      | error e => simp [startup, hargs]
      | ok a =>
        cases a with
        | v6 x => simp [startup, hargs]
        | v4 x =>
          cases r6 with
          | error e => simp [startup, hargs]
          | ok b =>
            cases b with
            | v4 y => simp [startup, hargs]
            | v6 y => exact absurd rfl (h6 y)

/-- Claim C10 witness: with an IPv4 address found but the IPv6 lookup
failing, startup aborts before the listener exists. -/
theorem c10_requires_both_families_witness :
    startup exampleArgs (.ok (.v4 7)) (.error noAddrMsg) = .usageExit ∨
    startup exampleArgs (.ok (.v4 7)) (.error noAddrMsg) = .aborted :=
  c10_requires_both_families (Or.inr (fun _ h => Except.noConfusion h))
